import Mathlib

/-!
Shallow embedding of `pkg/openstack/instancesv2.go` (cloud-provider-openstack):
the InstancesV2 cloud-provider implementation — instance location by name or
provider ID, existence / shutdown predicates, label sanitization, provider-ID
encoding, and metadata synthesis.

Remote collaborators (the compute "list servers" and "get server" endpoints and
the metadata collaborators) are modelled as function-valued state, and every
outbound remote call is recorded in a trace together with the `context.Context`
value it was issued under.
-/

namespace InstancesV2Spec

/-- A Go `context.Context` value, abstracted: either the caller-supplied
context (tagged by an id) or `context.TODO()`. -/
inductive Ctx where
  | caller (id : Nat)
  | todo
deriving Repr, DecidableEq

/-- One outbound remote call, recording the context it was issued under:
`servers.List(...).AllPages(ctx)` or `servers.Get(ctx, compute, id)`. -/
inductive RemoteCall where
  | list (ctx : Ctx) (pattern : String)
  | get (ctx : Ctx) (instanceID : String)
deriving Repr, DecidableEq

/-- The context a remote call was issued under. -/
def RemoteCall.ctxOf : RemoteCall → Ctx
  | .list c _ => c
  | .get c _ => c

/-- The fields of `servers.Server` used by this file. -/
structure Server where
  ID : String
  Name : String
  Status : String
  AvailabilityZone : String
deriving Repr, DecidableEq

/-- Go zero value of `servers.Server` (restricted to the fields used here). -/
def zeroServer : Server :=
  { ID := "", Name := "", Status := "", AvailabilityZone := "" }

/-- A `v1.Node` restricted to the fields read by this file:
`node.Name` and `node.Spec.ProviderID`. -/
structure Node where
  Name : String
  ProviderID : String
deriving Repr, DecidableEq

/-- Errors produced by this file. `instanceNotFound` models the sentinel
`cloudprovider.InstanceNotFound`; the other constructors model the distinct
`fmt.Errorf` construction sites (carrying their message where it varies). -/
inductive CPError where
  | instanceNotFound
  | listError (msg : String)
  | multipleInstancesFound
  | providerIDError (msg : String)
  | regionMismatch (providerID region : String)
  | getError (msg : String)
  | collaboratorError (msg : String)
deriving Repr, DecidableEq

/-- Failure of the remote "get server" endpoint: a distinguishable not-found
condition (`errors.IsNotFound`) or any other remote error. -/
inductive RemoteErr where
  | notFound
  | other (msg : String)
deriving Repr, DecidableEq

/-- The remote compute endpoints consumed by `getInstance`:
`listServers pattern` models `servers.List(compute, opt).AllPages` followed by
`servers.ExtractServers` (an error from either stage is one `Except.error`),
and `getServer id` models `servers.Get(ctx, compute, id).Extract()`. -/
structure RemoteState where
  listServers : String → Except String (List Server)
  getServer : String → Except RemoteErr Server

/-- The receiver struct: the fields of `InstancesV2` that this logic reads
(`compute`/`network`/`networkingOpts` are collaborator handles, represented by
`RemoteState` and `Collaborators`). -/
structure InstancesV2 where
  region : String
  regionProviderID : Bool
deriving Repr, DecidableEq

/-- Modelled from the spec: `ProviderName` is declared elsewhere in the
repository (not in this source file). Per the spec it is "a fixed constant for
the deployment"; its concrete value is the provider tag of this deployment. -/
def ProviderName : String := "openstack"

/-- `fmt.Sprintf("^%s$", node.Name)`: the anchored exact-match list pattern. -/
def anchoredName (name : String) : String := "^" ++ name ++ "$"

/-- `i.makeInstanceID(srv)`: `fmt.Sprintf("%s://%s/%s", ProviderName, i.region,
srv.ID)` when `regionProviderID` is set, else
`fmt.Sprintf("%s:///%s", ProviderName, srv.ID)`. -/
def makeInstanceID (i : InstancesV2) (srv : Server) : String :=
  if i.regionProviderID then
    ProviderName ++ "://" ++ i.region ++ "/" ++ srv.ID
  else
    ProviderName ++ ":///" ++ srv.ID

/-- The scheme prefix of a provider ID, as characters. -/
def schemeChars : List Char := (ProviderName ++ "://").toList

/-- Modelled from the spec: the shape `region/InstanceID` after the scheme, a
slash-free (possibly empty) region, one `/`, and a nonempty slash-free
instance ID — the two accepted shapes of §4.2 ("<provider>://<region>/<id>"
and "<provider>:///<id>", the latter being the empty-region case). Returns
`(instanceID, region)`. -/
def parseRegionInstance (l : List Char) : Option (String × String) :=
  let region := l.takeWhile (fun c => c ≠ '/')
  match l.dropWhile (fun c => c ≠ '/') with
  | '/' :: id =>
      if id ≠ [] ∧ id.all (fun c => c ≠ '/') then
        some (String.mk id, String.mk region)
      else
        none
  | _ => none

/-- Modelled from the spec: `instanceIDFromProviderID` is called by
`getInstance` but defined elsewhere in the repository (not in this source
file). Per §4.2 the decoder accepts `"<provider>://<region>/<instanceID>"`
and `"<provider>:///<instanceID>"` and fails with a format error on any
string not of either accepted shape (missing scheme, malformed path). -/
def instanceIDFromProviderID (providerID : String) :
    Except String (String × String) :=
  if schemeChars.isPrefixOf providerID.toList then
    match parseRegionInstance (providerID.toList.drop schemeChars.length) with
    | some (instanceID, region) => Except.ok (instanceID, region)
    | none =>
        Except.error ("ProviderID \"" ++ providerID ++
          "\" didn't match expected format \"" ++ ProviderName ++
          "://region/InstanceID\"")
  else
    Except.error ("ProviderID \"" ++ providerID ++
      "\" didn't match expected format \"" ++ ProviderName ++
      "://region/InstanceID\"")

/-- `i.getInstance(ctx, node)`. Returns the Go pair `(*servers.Server, error)`
as `(Option Server × Option CPError)` plus the trace of remote calls issued.
Note: the source issues both remote calls under `context.TODO()`
(`AllPages(context.TODO())`, `servers.Get(context.TODO(), ...)`), not under
the caller-supplied `ctx`, which is therefore unused below. -/
def getInstance (i : InstancesV2) (st : RemoteState) (ctx : Ctx) (node : Node) :
    (Option Server × Option CPError) × List RemoteCall :=
  if node.ProviderID = "" then
    let pat := anchoredName node.Name
    let calls := [RemoteCall.list Ctx.todo pat]
    match st.listServers pat with
    | Except.error msg => ((none, some (CPError.listError msg)), calls)
    | Except.ok serverList =>
      match serverList with
      | [] => ((none, some CPError.instanceNotFound), calls)
      | [s] => ((some s, none), calls)
      | _ :: _ :: _ => ((none, some CPError.multipleInstancesFound), calls)
  else
    match instanceIDFromProviderID node.ProviderID with
    | Except.error msg => ((none, some (CPError.providerIDError msg)), [])
    | Except.ok (instanceID, instanceRegion) =>
      if instanceRegion ≠ "" ∧ instanceRegion ≠ i.region then
        ((none, some (CPError.regionMismatch node.ProviderID i.region)), [])
      else
        let calls := [RemoteCall.get Ctx.todo instanceID]
        match st.getServer instanceID with
        | Except.error RemoteErr.notFound =>
            ((none, some CPError.instanceNotFound), calls)
        | Except.error (RemoteErr.other msg) =>
            ((none, some (CPError.getError msg)), calls)
        | Except.ok server => ((some server, none), calls)

/-- `i.InstanceExists(ctx, node)`: the Go pair `(bool, error)` plus the remote
trace. The source first compares the locate error against the
`cloudprovider.InstanceNotFound` sentinel, then propagates any other error. -/
def InstanceExists (i : InstancesV2) (st : RemoteState) (ctx : Ctx)
    (node : Node) : (Bool × Option CPError) × List RemoteCall :=
  match getInstance i st ctx node with
  | ((_, some CPError.instanceNotFound), calls) => ((false, none), calls)
  | ((_, some e), calls) => ((false, some e), calls)
  | ((_, none), calls) => ((true, none), calls)

/-- Modelled from the spec: the constant `instanceShutoff` is declared
elsewhere in the repository; per the spec the "powered off" lifecycle state
is `SHUTOFF`. -/
def instanceShutoff : String := "SHUTOFF"

/-- `i.InstanceShutdown(ctx, node)`: propagate locate errors; otherwise report
`true` exactly when `server.Status == instanceShutoff`. The source
dereferences the returned record directly; the `none` fallback below is
unreachable because a nil error implies a non-nil record. -/
def InstanceShutdown (i : InstancesV2) (st : RemoteState) (ctx : Ctx)
    (node : Node) : (Bool × Option CPError) × List RemoteCall :=
  match getInstance i st ctx node with
  | ((_, some e), calls) => ((false, some e), calls)
  | ((srv, none), calls) =>
    let server := srv.getD zeroServer
    if server.Status = instanceShutoff then ((true, none), calls)
    else ((false, none), calls)

/-- The character class of the regex `[^-a-zA-Z0-9_.]+` (complemented):
`-` (45), `a`-`z` (97..122), `A`-`Z` (65..90), `0`-`9` (48..57),
`_` (95), `.` (46), by ASCII code. -/
def isLabelChar (c : Char) : Bool :=
  c.toNat == 45 || (97 ≤ c.toNat && c.toNat ≤ 122) ||
  (65 ≤ c.toNat && c.toNat ≤ 90) || (48 ≤ c.toNat && c.toNat ≤ 57) ||
  c.toNat == 95 || c.toNat == 46

/-- The cutset of `strings.Trim(sanitized, "-_.")`:
`-` (45), `_` (95), `.` (46), by ASCII code. -/
def isTrimChar (c : Char) : Bool :=
  c.toNat == 45 || c.toNat == 95 || c.toNat == 46

/-- `reg.ReplaceAllString(input, "-")` for `reg = [^-a-zA-Z0-9_.]+`: each
maximal run of characters outside the class becomes a single `-`. The flag
records whether the previous character was inside such a run. -/
def replaceRunsAux : Bool → List Char → List Char
  | _, [] => []
  | inRun, c :: cs =>
    if isLabelChar c then c :: replaceRunsAux false cs
    else if inRun then replaceRunsAux true cs
    else '-' :: replaceRunsAux true cs

/-- `reg.ReplaceAllString(input, "-")`, starting outside any run. -/
def replaceRuns (l : List Char) : List Char := replaceRunsAux false l

/-- `strings.Trim(s, "-_.")`: drop the trim cutset from both ends. -/
def trimCutset (l : List Char) : List Char :=
  ((l.dropWhile isTrimChar).reverse.dropWhile isTrimChar).reverse

/-- The character pipeline of `sanitizeLabel`: replace forbidden runs, trim,
truncate to 63, lower-case (`strings.ToLower`; every character reaching it is
ASCII, where Go lowering agrees with `Char.toLower`). -/
def sanitizeChars (l : List Char) : List Char :=
  (((trimCutset (replaceRuns l)).take 63).map Char.toLower)

/-- `sanitizeLabel(input)`: the Go pair `(string, error)`; the error result is
the literal `nil` of the source. -/
def sanitizeLabel (input : String) : String × Option String :=
  (String.mk (sanitizeChars input.toList), none)

/-- A `PortList` element as handed around by the metadata collaborators;
opaque to this file. -/
structure Port where
  ID : String
deriving Repr, DecidableEq

/-- A `v1.NodeAddress` (the Go field `Type` is spelt `AddrType` here because
`Type` is reserved in Lean); opaque to this file. -/
structure NodeAddress where
  AddrType : String
  Address : String
deriving Repr, DecidableEq

/-- Modelled from the spec (§6): the metadata collaborators declared elsewhere
in the repository — `srvInstanceType(compute, server)`,
`getAttachedPorts(network, serverID)` and
`nodeAddresses(server, ports, network, networkingOpts)` — each a plain
fallible query (`compute`/`network`/`networkingOpts` are captured in the
closures). -/
structure Collaborators where
  srvInstanceType : Server → Except String String
  getAttachedPorts : String → Except String (List Port)
  nodeAddresses : Server → List Port → Except String (List NodeAddress)

/-- `cloudprovider.InstanceMetadata` restricted to the fields built here. -/
structure InstanceMetadataRecord where
  ProviderID : String
  InstanceType : String
  NodeAddresses : List NodeAddress
  Zone : String
  Region : String
deriving Repr, DecidableEq

/-- `i.InstanceMetadata(ctx, node)`: locate, guard the nil record (the Go
`if srv != nil` guard — `zeroServer` is the zero value the guard leaves in
place when the record is nil), then chain the collaborators and assemble the
record. Any failure aborts with that failure. -/
def InstanceMetadata (i : InstancesV2) (st : RemoteState)
    (collab : Collaborators) (ctx : Ctx) (node : Node) :
    (Option InstanceMetadataRecord × Option CPError) × List RemoteCall :=
  match getInstance i st ctx node with
  | ((_, some e), calls) => ((none, some e), calls)
  | ((srv, none), calls) =>
    let server := match srv with
      | some s => s
      | none => zeroServer
    match collab.srvInstanceType server with
    | Except.error e => ((none, some (CPError.collaboratorError e)), calls)
    | Except.ok instanceType =>
      match collab.getAttachedPorts server.ID with
      | Except.error e => ((none, some (CPError.collaboratorError e)), calls)
      | Except.ok ports =>
        match collab.nodeAddresses server ports with
        | Except.error e => ((none, some (CPError.collaboratorError e)), calls)
        | Except.ok addresses =>
          match sanitizeLabel server.AvailabilityZone with
          | (_, some e) => ((none, some (CPError.collaboratorError e)), calls)
          | (availabilityZone, none) =>
            ((some { ProviderID := makeInstanceID i server,
                     InstanceType := instanceType,
                     NodeAddresses := addresses,
                     Zone := availabilityZone,
                     Region := i.region }, none), calls)

/-- The anchored-regex matching the remote lister performs for a pattern
produced by `anchoredName`: `^x$` matches exactly the name `x`. -/
def matchesAnchored (pat name : String) : Bool := pat == anchoredName name

/-- A remote lister that honours the collaborator contract of the spec (§6):
anchored exact-name matching over a fixed set of instances, transport
succeeding. -/
def exactListServers (servers : List Server) :
    String → Except String (List Server) :=
  fun pat => Except.ok (servers.filter (fun s => matchesAnchored pat s.Name))

/-- A remote state whose list endpoint is `exactListServers` over `servers`
and whose get endpoint is `g`. -/
def exactRemote (servers : List Server) (g : String → Except RemoteErr Server) :
    RemoteState :=
  { listServers := exactListServers servers, getServer := g }

/-- Lower-case label characters: `-`, `a`-`z`, `0`-`9`, `_`, `.`. -/
def isLowerLabelChar (c : Char) : Bool :=
  c.toNat == 45 || (97 ≤ c.toNat && c.toNat ≤ 122) ||
  (48 ≤ c.toNat && c.toNat ≤ 57) || c.toNat == 95 || c.toNat == 46

/-- ASCII alphanumeric characters, `a-zA-Z0-9`. -/
def isAlnumChar (c : Char) : Bool :=
  (97 ≤ c.toNat && c.toNat ≤ 122) || (65 ≤ c.toNat && c.toNat ≤ 90) ||
  (48 ≤ c.toNat && c.toNat ≤ 57)

/-- A 64-character input (62 `a`s, a `.`, an `a`) whose sanitized form is
truncated right after the `.`. -/
def longInput : String := String.mk (List.replicate 62 'a' ++ ['.', 'a'])

/-- Fixture: a server matched by name. -/
def sampleServer : Server :=
  { ID := "abc", Name := "node-1", Status := "ACTIVE",
    AvailabilityZone := "AZ_1!!" }

/-- Fixture: a powered-off server. -/
def shutoffServer : Server :=
  { ID := "xyz", Name := "node-2", Status := "SHUTOFF",
    AvailabilityZone := "nova" }

/-- Fixture: remote state with a single get-able shutoff server and an
exact-match lister over `[sampleServer]`. -/
def sampleRemote : RemoteState :=
  { listServers := exactListServers [sampleServer],
    getServer := fun id =>
      if id = "xyz" then Except.ok shutoffServer
      else Except.error RemoteErr.notFound }

/-- Fixture: local deployment, region-unqualified provider IDs. -/
def localInstances : InstancesV2 := { region := "local", regionProviderID := false }

/-- Fixture: collaborators that always succeed. -/
def sampleCollaborators : Collaborators :=
  { srvInstanceType := fun _ => Except.ok ("m1.small"),
    getAttachedPorts := fun _ => Except.ok [],
    nodeAddresses := fun _ _ => Except.ok [] }

end InstancesV2Spec

deriving instance DecidableEq for Except

namespace InstancesV2Spec

/-! ## Shape of the locator result -/

/-- Every run of the locator yields either a record with nil error, or no
record with a non-nil error. -/
theorem getInstance_shape (i : InstancesV2) (st : RemoteState) (ctx : Ctx)
    (node : Node) :
    (∃ s calls, getInstance i st ctx node = ((some s, none), calls)) ∨
    (∃ e calls, getInstance i st ctx node = ((none, some e), calls)) := by
  unfold getInstance
  dsimp only
  repeat' split
  all_goals first
    | (left; exact ⟨_, _, rfl⟩)
    | (right; exact ⟨_, _, rfl⟩)

/-! ## Anchored name matching -/

theorem anchoredName_inj {a b : String} (h : anchoredName a = anchoredName b) :
    a = b := by
  unfold anchoredName at h
  have hd := congrArg String.data h
  simp only [String.data_append] at hd
  apply String.ext
  simpa using hd

theorem matchesAnchored_eq (n m : String) :
    matchesAnchored (anchoredName n) m = (m == n) := by
  unfold matchesAnchored
  by_cases h : m = n
  · subst h; simp
  · have hne : anchoredName n ≠ anchoredName m :=
      fun he => h (anchoredName_inj he).symm
    have h1 : (anchoredName n == anchoredName m) = false := by
      simpa using hne
    have h2 : (m == n) = false := by simpa using h
    rw [h1, h2]

theorem filter_matchesAnchored (servers : List Server) (n : String) :
    servers.filter (fun s => matchesAnchored (anchoredName n) s.Name) =
      servers.filter (fun s => s.Name == n) :=
  List.filter_congr (fun s _ => matchesAnchored_eq n s.Name)

/-- On the name path, against a contract-honouring remote lister, the locator
is exactly a case split on the list of exact-name matches. -/
theorem getInstance_by_name_eq (i : InstancesV2) (servers : List Server)
    (g : String → Except RemoteErr Server) (ctx : Ctx) (node : Node)
    (hpid : node.ProviderID = "") :
    getInstance i (exactRemote servers g) ctx node =
      (match servers.filter (fun s => s.Name == node.Name) with
       | [] => ((none, some CPError.instanceNotFound),
           [RemoteCall.list Ctx.todo (anchoredName node.Name)])
       | [s] => ((some s, none),
           [RemoteCall.list Ctx.todo (anchoredName node.Name)])
       | _ :: _ :: _ => ((none, some CPError.multipleInstancesFound),
           [RemoteCall.list Ctx.todo (anchoredName node.Name)])) := by
  unfold getInstance exactRemote exactListServers
  rw [if_pos hpid]
  dsimp only
  rw [filter_matchesAnchored]

/-! ## Claim theorems -/

/-- C1: for every node reference without a provider identity and every remote
state honouring the lister contract, `getInstance` returns the unique instance
whose name exactly matches the node name when exactly one exists, the
`InstanceNotFound` error when none matches, and the ambiguity error — never
one of the matched instances — when two or more match. -/
theorem C1_locator_by_name (i : InstancesV2) (servers : List Server)
    (g : String → Except RemoteErr Server) (ctx : Ctx) (node : Node)
    (hpid : node.ProviderID = "") :
    (servers.filter (fun s => s.Name == node.Name) = [] →
       (getInstance i (exactRemote servers g) ctx node).1 =
         (none, some CPError.instanceNotFound)) ∧
    (∀ s, servers.filter (fun s => s.Name == node.Name) = [s] →
       (getInstance i (exactRemote servers g) ctx node).1 = (some s, none)) ∧
    (2 ≤ (servers.filter (fun s => s.Name == node.Name)).length →
       (getInstance i (exactRemote servers g) ctx node).1 =
         (none, some CPError.multipleInstancesFound) ∧
       ∀ s, (getInstance i (exactRemote servers g) ctx node).1.1 ≠ some s) := by
  rw [getInstance_by_name_eq i servers g ctx node hpid]
  refine ⟨?_, ?_, ?_⟩
  · intro h; rw [h]
  · intro s h; rw [h]
  · intro h
    match hf : servers.filter (fun s => s.Name == node.Name) with
    | [] => rw [hf] at h; simp at h
    | [s] => rw [hf] at h; simp at h
    | a :: b :: rest => rw [hf]; exact ⟨rfl, fun s hs => by simp at hs⟩

/-- C1 witness: one exact-name match is returned. -/
theorem C1_locator_by_name_witness :
    ([sampleServer].filter (fun s => s.Name == "node-1") = [sampleServer]) ∧
    (getInstance localInstances (exactRemote [sampleServer]
        (fun _ => Except.error RemoteErr.notFound)) (Ctx.caller 0)
        ⟨"node-1", ""⟩).1 = (some sampleServer, none) :=
  ⟨by decide,
   (C1_locator_by_name localInstances [sampleServer]
      (fun _ => Except.error RemoteErr.notFound) (Ctx.caller 0)
      ⟨"node-1", ""⟩ rfl).2.1 sampleServer (by decide)⟩

/-- C2: for every node reference whose provider identity decodes to a
non-empty region different from the configured one, `getInstance` returns the
region-mismatch error and issues no remote call at all (in particular no
instance-get). -/
theorem C2_region_mismatch (i : InstancesV2) (st : RemoteState) (ctx : Ctx)
    (node : Node) (instanceID instanceRegion : String)
    (hne : node.ProviderID ≠ "")
    (hdec : instanceIDFromProviderID node.ProviderID =
      Except.ok (instanceID, instanceRegion))
    (hreg : instanceRegion ≠ "") (hmm : instanceRegion ≠ i.region) :
    getInstance i st ctx node =
      ((none, some (CPError.regionMismatch node.ProviderID i.region)), []) ∧
    ∀ c : RemoteCall, c ∉ (getInstance i st ctx node).2 := by
  have h : getInstance i st ctx node =
      ((none, some (CPError.regionMismatch node.ProviderID i.region)), []) := by
    unfold getInstance
    rw [if_neg hne, hdec]
    dsimp only
    rw [if_pos ⟨hreg, hmm⟩]
  exact ⟨h, fun c hc => by rw [h] at hc; simp at hc⟩

/-- C2 witness: region `other` against local region `local`. -/
theorem C2_region_mismatch_witness :
    instanceIDFromProviderID ("openstack://other/xyz") =
      Except.ok ("xyz", "other") ∧
    getInstance localInstances sampleRemote (Ctx.caller 0)
        ⟨"node-2", "openstack://other/xyz"⟩ =
      ((none, some (CPError.regionMismatch ("openstack://other/xyz")
        ("local"))), []) :=
  ⟨rfl,
   (C2_region_mismatch localInstances sampleRemote (Ctx.caller 0)
      ⟨"node-2", "openstack://other/xyz"⟩ "xyz" "other"
      (by decide) rfl (by decide) (by decide)).1⟩

/-- C4: the provider-identity encoder produces exactly
`<provider>://<region>/<instanceID>` in region-qualified mode and exactly
`<provider>:///<instanceID>` otherwise, with the fixed provider constant. -/
theorem C4_makeInstanceID_format (i : InstancesV2) (srv : Server) :
    (i.regionProviderID = true →
      makeInstanceID i srv = ProviderName ++ "://" ++ i.region ++ "/" ++ srv.ID) ∧
    (i.regionProviderID = false →
      makeInstanceID i srv = ProviderName ++ ":///" ++ srv.ID) := by
  constructor <;> intro h <;> simp [makeInstanceID, h]

/-- C4 witness: both modes on a concrete server. -/
theorem C4_makeInstanceID_format_witness :
    ((⟨"local", true⟩ : InstancesV2).regionProviderID = true ∧
      makeInstanceID ⟨"local", true⟩ sampleServer = "openstack://local/abc") ∧
    ((⟨"local", false⟩ : InstancesV2).regionProviderID = false ∧
      makeInstanceID ⟨"local", false⟩ sampleServer = "openstack:///abc") :=
  ⟨⟨rfl, ((C4_makeInstanceID_format ⟨"local", true⟩ sampleServer).1 rfl).trans
      (by decide)⟩,
   ⟨rfl, ((C4_makeInstanceID_format ⟨"local", false⟩ sampleServer).2 rfl).trans
      (by decide)⟩⟩

/-- C9: the source does not issue its remote calls under the caller-supplied
context: both the instance-list and the instance-get call are issued under
`context.TODO()` whatever context the caller passes, so cancelling the
caller's context cannot abort them. -/
theorem C9_remote_calls_use_todo_context :
    (∀ ctx : Ctx,
      (getInstance localInstances sampleRemote ctx ⟨"node-1", ""⟩).2 =
        [RemoteCall.list Ctx.todo ("^node-1$")] ∧
      (getInstance localInstances sampleRemote ctx
          ⟨"node-2", "openstack:///xyz"⟩).2 =
        [RemoteCall.get Ctx.todo ("xyz")]) ∧
    ∀ n : Nat, Ctx.caller n ≠ Ctx.todo := by
  refine ⟨fun ctx => ⟨rfl, rfl⟩, fun n h => by cases h⟩

/-- C7: `InstanceExists` returns `(false, nil)` exactly when the locator
fails with `InstanceNotFound`, `(true, nil)` exactly when it succeeds, and
propagates every other locator error unchanged. -/
theorem C7_instanceExists_mapping (i : InstancesV2) (st : RemoteState)
    (ctx : Ctx) (node : Node) :
    ((InstanceExists i st ctx node).1 = (false, none) ↔
       (getInstance i st ctx node).1.2 = some CPError.instanceNotFound) ∧
    ((InstanceExists i st ctx node).1 = (true, none) ↔
       (getInstance i st ctx node).1.2 = none) ∧
    (∀ e, e ≠ CPError.instanceNotFound →
       (getInstance i st ctx node).1.2 = some e →
       (InstanceExists i st ctx node).1 = (false, some e)) := by
  rcases h : getInstance i st ctx node with ⟨⟨srv, err⟩, calls⟩
  refine ⟨?_, ?_, ?_⟩
  · match err with
    | none => simp [InstanceExists, h]
    | some e => cases e <;> simp [InstanceExists, h]
  · match err with
    | none => simp [InstanceExists, h]
    | some e => cases e <;> simp [InstanceExists, h]
  · intro e hne he
    have he2 : err = some e := by simpa using he
    subst he2
    cases e
    · exact absurd rfl hne
    all_goals simp [InstanceExists, h]

/-- C7 witness: empty remote state maps not-found to `(false, nil)`. -/
theorem C7_instanceExists_mapping_witness :
    (getInstance localInstances (exactRemote []
        (fun _ => Except.error RemoteErr.notFound)) (Ctx.caller 0)
        ⟨"node-9", ""⟩).1.2 = some CPError.instanceNotFound ∧
    (InstanceExists localInstances (exactRemote []
        (fun _ => Except.error RemoteErr.notFound)) (Ctx.caller 0)
        ⟨"node-9", ""⟩).1 = (false, none) :=
  ⟨by decide,
   (C7_instanceExists_mapping localInstances (exactRemote []
      (fun _ => Except.error RemoteErr.notFound)) (Ctx.caller 0)
      ⟨"node-9", ""⟩).1.mpr (by decide)⟩

/-- C8: when the locator succeeds, `InstanceShutdown` reports `(true, nil)`
iff the instance status is the powered-off (`SHUTOFF`) state and
`(false, nil)` for every other status; when the locator fails its error is
propagated. -/
theorem C8_instanceShutdown_mapping (i : InstancesV2) (st : RemoteState)
    (ctx : Ctx) (node : Node) :
    (∀ s, (getInstance i st ctx node).1 = (some s, none) →
       (((InstanceShutdown i st ctx node).1 = (true, none) ↔
           s.Status = instanceShutoff) ∧
        (s.Status ≠ instanceShutoff →
           (InstanceShutdown i st ctx node).1 = (false, none)))) ∧
    (∀ e, (getInstance i st ctx node).1.2 = some e →
       (InstanceShutdown i st ctx node).1 = (false, some e)) := by
  rcases h : getInstance i st ctx node with ⟨⟨srv, err⟩, calls⟩
  simp only [InstanceShutdown, h]
  constructor
  · intro s hs
    simp only [Prod.mk.injEq] at hs
    rcases hs with ⟨hsrv, herr⟩
    subst hsrv; subst herr
    dsimp only [Option.getD]
    by_cases hst : s.Status = instanceShutoff
    · rw [if_pos hst]; simp [hst]
    · rw [if_neg hst]; simp [hst]
  · intro e he
    have he2 : err = some e := by simpa using he
    subst he2
    rfl

/-- C8 witness: a `SHUTOFF` instance located by provider ID reports
`(true, nil)`. -/
theorem C8_instanceShutdown_mapping_witness :
    (getInstance localInstances sampleRemote (Ctx.caller 0)
        ⟨"node-2", "openstack:///xyz"⟩).1 = (some shutoffServer, none) ∧
    (InstanceShutdown localInstances sampleRemote (Ctx.caller 0)
        ⟨"node-2", "openstack:///xyz"⟩).1 = (true, none) :=
  ⟨by decide,
   ((C8_instanceShutdown_mapping localInstances sampleRemote (Ctx.caller 0)
      ⟨"node-2", "openstack:///xyz"⟩).1 shutoffServer
      (by decide)).1.mpr (by decide)⟩

/-- C10: the locator returns a record exactly when it returns a nil error, so
the nil-record guard in `InstanceMetadata` is never taken after a successful
locate and the metadata is synthesized from the actually fetched instance. -/
theorem C10_record_iff_nil_error (i : InstancesV2) (st : RemoteState)
    (ctx : Ctx) (node : Node) :
    ((getInstance i st ctx node).1.1.isSome = true ↔
       (getInstance i st ctx node).1.2 = none) ∧
    (∀ collab s calls,
       getInstance i st ctx node = ((some s, none), calls) →
       ∀ md, (InstanceMetadata i st collab ctx node).1.1 = some md →
         md.ProviderID = makeInstanceID i s ∧
         md.Zone = (sanitizeLabel s.AvailabilityZone).1 ∧
         md.Region = i.region) := by
  constructor
  · rcases getInstance_shape i st ctx node with ⟨s, calls, h⟩ | ⟨e, calls, h⟩ <;>
      rw [h] <;> simp
  · intro collab s calls h md hmd
    unfold InstanceMetadata at hmd
    rw [h] at hmd
    dsimp only at hmd
    rcases h1 : collab.srvInstanceType s with e1 | instanceType <;>
      rw [h1] at hmd <;> dsimp only at hmd
    · simp at hmd
    rcases h2 : collab.getAttachedPorts s.ID with e2 | ports <;>
      rw [h2] at hmd <;> dsimp only at hmd
    · simp at hmd
    rcases h3 : collab.nodeAddresses s ports with e3 | addresses <;>
      rw [h3] at hmd <;> dsimp only at hmd
    · simp at hmd
    dsimp only [sanitizeLabel] at hmd
    simp only [Option.some_inj] at hmd
    subst hmd
    exact ⟨rfl, rfl, rfl⟩

/-- C10 witness: concrete metadata is assembled from the located instance. -/
theorem C10_record_iff_nil_error_witness :
    getInstance localInstances sampleRemote (Ctx.caller 0)
        ⟨"node-2", "openstack:///xyz"⟩ =
      ((some shutoffServer, none), [RemoteCall.get Ctx.todo ("xyz")]) ∧
    (InstanceMetadata localInstances sampleRemote sampleCollaborators
        (Ctx.caller 0) ⟨"node-2", "openstack:///xyz"⟩).1.1 =
      some { ProviderID := "openstack:///xyz", InstanceType := "m1.small",
             NodeAddresses := [], Zone := "nova", Region := "local" } ∧
    makeInstanceID localInstances shutoffServer = "openstack:///xyz" ∧
    (sanitizeLabel shutoffServer.AvailabilityZone).1 = "nova" :=
  ⟨by decide, by decide,
   (((C10_record_iff_nil_error localInstances sampleRemote (Ctx.caller 0)
        ⟨"node-2", "openstack:///xyz"⟩).2 sampleCollaborators shutoffServer
        [RemoteCall.get Ctx.todo ("xyz")] (by decide)
        { ProviderID := "openstack:///xyz", InstanceType := "m1.small",
          NodeAddresses := [], Zone := "nova", Region := "local" }
        (by decide)).1).symm.trans (by decide),
   by decide⟩

/-! ## Identity codec round trip -/

theorem takeWhile_append_slash (r id : List Char) (hr : '/' ∉ r) :
    (r ++ '/' :: id).takeWhile (fun c => c ≠ '/') = r := by
  induction r with
  | nil => simp
  | cons c cs ih =>
    have hc : c ≠ '/' := fun h => hr (h ▸ List.mem_cons_self c cs)
    have hcs : '/' ∉ cs := fun h => hr (List.mem_cons_of_mem c h)
    simp only [List.cons_append, List.takeWhile_cons]
    rw [if_pos (by simpa using hc), ih hcs]

theorem dropWhile_append_slash (r id : List Char) (hr : '/' ∉ r) :
    (r ++ '/' :: id).dropWhile (fun c => c ≠ '/') = '/' :: id := by
  induction r with
  | nil => simp
  | cons c cs ih =>
    have hc : c ≠ '/' := fun h => hr (h ▸ List.mem_cons_self c cs)
    have hcs : '/' ∉ cs := fun h => hr (List.mem_cons_of_mem c h)
    simp only [List.cons_append, List.dropWhile_cons]
    rw [if_pos (by simpa using hc), ih hcs]

theorem parseRegionInstance_append (r id : List Char) (hr : '/' ∉ r)
    (hid : '/' ∉ id) (hne : id ≠ []) :
    parseRegionInstance (r ++ '/' :: id) = some (String.mk id, String.mk r) := by
  unfold parseRegionInstance
  rw [takeWhile_append_slash r id hr, dropWhile_append_slash r id hr]
  split
  · next id2 heq =>
    obtain rfl : id = id2 := by injection heq
    rw [if_pos]
    refine ⟨hne, ?_⟩
    simp only [List.all_eq_true, decide_eq_true_eq]
    intro c hc h
    exact hid (h ▸ hc)
  · next hno =>
    exact absurd rfl (hno id)

theorem decode_scheme_ok (rest : List Char) (instanceID region : String)
    (h : parseRegionInstance rest = some (instanceID, region)) :
    instanceIDFromProviderID (String.mk (schemeChars ++ rest)) =
      Except.ok (instanceID, region) := by
  unfold instanceIDFromProviderID
  have h1 : (String.mk (schemeChars ++ rest)).toList = schemeChars ++ rest := rfl
  rw [h1]
  have h2 : schemeChars.isPrefixOf (schemeChars ++ rest) = true := by
    rw [List.isPrefixOf_iff_prefix]
    exact List.prefix_append _ _
  rw [if_pos h2, List.drop_left, h]

theorem encode_true_toList (r id : String) :
    ProviderName ++ "://" ++ r ++ "/" ++ id =
      String.mk (schemeChars ++ (r.toList ++ '/' :: id.toList)) := by
  apply String.ext
  have hs : ("/" : String).data = ['/'] := rfl
  simp [schemeChars, String.data_append, hs]

theorem encode_false_toList (id : String) :
    ProviderName ++ ":///" ++ id =
      String.mk (schemeChars ++ ('/' :: id.toList)) := by
  apply String.ext
  have hs : (":///" : String).data = [':', '/', '/', '/'] := rfl
  have hs2 : ("://" : String).data = [':', '/', '/'] := rfl
  simp [schemeChars, String.data_append, hs, hs2]

/-- C3 counterexample: the encoder is not injective — the region-qualified
identities of (id `a/b`, region `r`) and (id `b`, region `r/a`) coincide, so
no decoder can round-trip both; on the concrete identity the decoder does not
return `(a/b, r)` (it rejects the string as malformed). -/
theorem C3_roundtrip_counterexample :
    makeInstanceID ⟨"r", true⟩ ⟨"a/b", "", "", ""⟩ = "openstack://r/a/b" ∧
    makeInstanceID ⟨"r/a", true⟩ ⟨"b", "", "", ""⟩ = "openstack://r/a/b" ∧
    instanceIDFromProviderID ("openstack://r/a/b") ≠ Except.ok ("a/b", "r") :=
  ⟨by decide, by decide, by decide⟩

/-- C3 (amended): the round trip `decode (encode id r true) = (id, r)` and
`decode (encode id "" false) = (id, "")` holds for every instance identifier
`id` that is nonempty and slash-free and every region `r` that is slash-free
(`encode id r q` is `makeInstanceID` on a receiver with region `r` and
region-qualified flag `q`, applied to a server whose ID is `id`). -/
theorem C3_roundtrip_amended (id r : String) (srv : Server)
    (hsrv : srv.ID = id) (hne : id.toList ≠ []) (hid : '/' ∉ id.toList)
    (hr : '/' ∉ r.toList) :
    instanceIDFromProviderID (makeInstanceID ⟨r, true⟩ srv) =
      Except.ok (id, r) ∧
    instanceIDFromProviderID (makeInstanceID ⟨"", false⟩ srv) =
      Except.ok (id, "") := by
  subst hsrv
  constructor
  · show instanceIDFromProviderID
      (ProviderName ++ "://" ++ r ++ "/" ++ srv.ID) = _
    rw [encode_true_toList]
    rw [decode_scheme_ok (r.toList ++ '/' :: srv.ID.toList) srv.ID r
      (parseRegionInstance_append r.toList srv.ID.toList hr hid hne)]
  · show instanceIDFromProviderID (ProviderName ++ ":///" ++ srv.ID) = _
    rw [encode_false_toList]
    have hp : parseRegionInstance ('/' :: srv.ID.toList) =
        some (srv.ID, "") := by
      have h0 := parseRegionInstance_append [] srv.ID.toList
        (by simp) hid hne
      simpa using h0
    rw [decode_scheme_ok ('/' :: srv.ID.toList) srv.ID "" hp]

/-- C3 amended witness: id `abc`, region `local`. -/
theorem C3_roundtrip_amended_witness :
    instanceIDFromProviderID (makeInstanceID ⟨"local", true⟩
        ⟨"abc", "", "", ""⟩) = Except.ok ("abc", "local") ∧
    instanceIDFromProviderID (makeInstanceID ⟨"", false⟩
        ⟨"abc", "", "", ""⟩) = Except.ok ("abc", "") :=
  C3_roundtrip_amended "abc" "local" ⟨"abc", "", "", ""⟩ rfl
    (by decide) (by decide) (by decide)

/-! ## Character facts for the sanitizer -/

theorem toNat_ofNat_valid (n : Nat) (h : n.isValidChar) :
    (Char.ofNat n).toNat = n := by
  rw [Char.ofNat, dif_pos h]
  rfl

theorem toLower_toNat (c : Char) :
    (Char.toLower c).toNat =
      if 65 ≤ c.toNat ∧ c.toNat ≤ 90 then c.toNat + 32 else c.toNat := by
  unfold Char.toLower
  split
  · next h =>
    rw [if_pos ⟨h.1, h.2⟩]
    exact toNat_ofNat_valid _ (Or.inl (by omega))
  · next h => rw [if_neg h]

theorem char_toNat_inj {c d : Char} (h : c.toNat = d.toNat) : c = d :=
  Char.ext (UInt32.toNat.inj h)

theorem isLowerLabelChar_toLower {c : Char} (h : isLabelChar c = true) :
    isLowerLabelChar (Char.toLower c) = true := by
  simp only [isLabelChar, Bool.or_eq_true, Bool.and_eq_true, beq_iff_eq,
    decide_eq_true_eq] at h
  simp only [isLowerLabelChar, Bool.or_eq_true, Bool.and_eq_true, beq_iff_eq,
    decide_eq_true_eq, toLower_toNat]
  split <;> omega

theorem isLabelChar_of_lower {c : Char} (h : isLowerLabelChar c = true) :
    isLabelChar c = true := by
  simp only [isLowerLabelChar, Bool.or_eq_true, Bool.and_eq_true, beq_iff_eq,
    decide_eq_true_eq] at h
  simp only [isLabelChar, Bool.or_eq_true, Bool.and_eq_true, beq_iff_eq,
    decide_eq_true_eq]
  omega

theorem toLower_eq_self_of_lower {c : Char} (h : isLowerLabelChar c = true) :
    Char.toLower c = c := by
  apply char_toNat_inj
  rw [toLower_toNat]
  simp only [isLowerLabelChar, Bool.or_eq_true, Bool.and_eq_true, beq_iff_eq,
    decide_eq_true_eq] at h
  rw [if_neg]
  omega

theorem isTrimChar_toLower_eq {c : Char} :
    isTrimChar (Char.toLower c) = isTrimChar c := by
  by_cases h : 65 ≤ c.toNat ∧ c.toNat ≤ 90
  · have h1 : isTrimChar (Char.toLower c) = false := by
      simp only [isTrimChar, toLower_toNat, if_pos h]
      simp only [Bool.or_eq_false_iff, beq_eq_false_iff_ne]
      omega
    have h2 : isTrimChar c = false := by
      simp only [isTrimChar]
      simp only [Bool.or_eq_false_iff, beq_eq_false_iff_ne]
      omega
    rw [h1, h2]
  · have he : Char.toLower c = c := by
      apply char_toNat_inj
      rw [toLower_toNat, if_neg h]
    rw [he]

/-! ## replaceRuns facts -/

theorem isLabelChar_of_mem_replaceRunsAux :
    ∀ (b : Bool) (l : List Char) (c : Char), c ∈ replaceRunsAux b l →
      isLabelChar c = true := by
  intro b l
  induction l generalizing b with
  | nil => intro c hc; simp [replaceRunsAux] at hc
  | cons d ds ih =>
    intro c hc
    unfold replaceRunsAux at hc
    by_cases hd : isLabelChar d = true
    · rw [if_pos hd] at hc
      rcases List.mem_cons.mp hc with rfl | hc2
      · exact hd
      · exact ih false c hc2
    · rw [if_neg hd] at hc
      rcases b with _ | _
      · rw [if_neg (by simp)] at hc
        rcases List.mem_cons.mp hc with rfl | hc2
        · decide
        · exact ih true c hc2
      · rw [if_pos rfl] at hc
        exact ih true c hc

theorem replaceRunsAux_eq_self :
    ∀ (b : Bool) (l : List Char), (∀ c ∈ l, isLabelChar c = true) →
      replaceRunsAux b l = l := by
  intro b l
  induction l generalizing b with
  | nil => intro _; rfl
  | cons d ds ih =>
    intro h
    unfold replaceRunsAux
    rw [if_pos (h d (List.mem_cons_self d ds))]
    rw [ih false (fun c hc => h c (List.mem_cons_of_mem d hc))]

/-! ## trimCutset facts -/

theorem dropWhile_head_false {p : Char → Bool} :
    ∀ (l : List Char) (c : Char) (rest : List Char),
      l.dropWhile p = c :: rest → p c = false := by
  intro l
  induction l with
  | nil => intro c rest h; simp [List.dropWhile] at h
  | cons d ds ih =>
    intro c rest h
    rw [List.dropWhile_cons] at h
    by_cases hd : p d = true
    · rw [if_pos hd] at h
      exact ih c rest h
    · rw [if_neg hd] at h
      injection h with h1 _
      rw [← h1]
      simpa using hd

theorem mem_of_mem_trimCutset {l : List Char} {c : Char}
    (h : c ∈ trimCutset l) : c ∈ l := by
  unfold trimCutset at h
  rw [List.mem_reverse] at h
  have h1 := (List.dropWhile_suffix isTrimChar).subset h
  rw [List.mem_reverse] at h1
  exact (List.dropWhile_suffix isTrimChar).subset h1

theorem trimCutset_prefix (l : List Char) :
    trimCutset l <+: l.dropWhile isTrimChar := by
  unfold trimCutset
  rw [← List.reverse_suffix, List.reverse_reverse]
  exact List.dropWhile_suffix isTrimChar

theorem trimCutset_head_false {l : List Char} {c : Char} {rest : List Char}
    (h : trimCutset l = c :: rest) : isTrimChar c = false := by
  have hp := trimCutset_prefix l
  rw [h] at hp
  rcases hp with ⟨t, ht⟩
  exact dropWhile_head_false l c (rest ++ t) (by rw [← ht]; simp)

theorem trimCutset_getLast_false {l : List Char} {c : Char}
    (h : (trimCutset l).getLast? = some c) : isTrimChar c = false := by
  unfold trimCutset at h
  rw [← List.head?_reverse, List.reverse_reverse] at h
  cases hd : List.dropWhile isTrimChar ((l.dropWhile isTrimChar).reverse) with
  | nil => rw [hd] at h; simp at h
  | cons x xs =>
    rw [hd] at h
    have hx : x = c := by simpa using h
    rw [← hx]
    exact dropWhile_head_false _ x xs hd

theorem dropWhile_eq_self_of_head {p : Char → Bool} {l : List Char}
    (h : ∀ c rest, l = c :: rest → p c = false) : l.dropWhile p = l := by
  cases l with
  | nil => rfl
  | cons c cs =>
    rw [List.dropWhile_cons, if_neg (by simp [h c cs rfl])]

theorem trimCutset_eq_self {l : List Char}
    (hhead : ∀ c rest, l = c :: rest → isTrimChar c = false)
    (hlast : ∀ c, l.getLast? = some c → isTrimChar c = false) :
    trimCutset l = l := by
  unfold trimCutset
  rw [dropWhile_eq_self_of_head hhead]
  rw [dropWhile_eq_self_of_head ?h2, List.reverse_reverse]
  case h2 =>
    intro c rest hrev
    apply hlast
    rw [← List.head?_reverse, hrev]
    rfl

/-! ## sanitizeChars facts -/

theorem head_take63 {l : List Char} : (l.take 63).head? = l.head? := by
  cases l <;> rfl

theorem sanitizeChars_all_lower (l : List Char) :
    ∀ c ∈ sanitizeChars l, isLowerLabelChar c = true := by
  intro c hc
  unfold sanitizeChars at hc
  rcases List.mem_map.mp hc with ⟨d, hd, rfl⟩
  apply isLowerLabelChar_toLower
  have hd2 : d ∈ trimCutset (replaceRuns l) := List.take_subset 63 _ hd
  have hd3 := mem_of_mem_trimCutset hd2
  unfold replaceRuns at hd3
  exact isLabelChar_of_mem_replaceRunsAux false l d hd3

theorem sanitizeChars_length (l : List Char) : (sanitizeChars l).length ≤ 63 := by
  unfold sanitizeChars
  rw [List.length_map]
  exact List.length_take_le 63 _

theorem sanitizeChars_head_false (l : List Char) (c : Char)
    (h : (sanitizeChars l).head? = some c) : isTrimChar c = false := by
  unfold sanitizeChars at h
  rw [List.head?_map, head_take63] at h
  cases hl : trimCutset (replaceRuns l) with
  | nil => rw [hl] at h; simp at h
  | cons x xs =>
    rw [hl] at h
    have hx : Char.toLower x = c := by simpa using h
    rw [← hx, isTrimChar_toLower_eq]
    exact trimCutset_head_false hl

theorem sanitizeChars_getLast_false (l : List Char) (c : Char)
    (hlen : (trimCutset (replaceRuns l)).length ≤ 63)
    (h : (sanitizeChars l).getLast? = some c) : isTrimChar c = false := by
  unfold sanitizeChars at h
  rw [List.take_of_length_le hlen, List.getLast?_map] at h
  cases ht : (trimCutset (replaceRuns l)).getLast? with
  | none => rw [ht] at h; simp at h
  | some d =>
    rw [ht] at h
    have hd : Char.toLower d = c := by simpa using h
    rw [← hd, isTrimChar_toLower_eq]
    exact trimCutset_getLast_false ht

theorem map_toLower_eq_self {l : List Char}
    (h : ∀ c ∈ l, isLowerLabelChar c = true) : l.map Char.toLower = l := by
  induction l with
  | nil => rfl
  | cons c cs ih =>
    rw [List.map_cons, toLower_eq_self_of_lower (h c (List.mem_cons_self c cs)),
      ih (fun d hd => h d (List.mem_cons_of_mem c hd))]

theorem sanitizeChars_idem (l : List Char)
    (hlen : (trimCutset (replaceRuns l)).length ≤ 63) :
    sanitizeChars (sanitizeChars l) = sanitizeChars l := by
  have hlow : ∀ c ∈ sanitizeChars l, isLowerLabelChar c = true :=
    sanitizeChars_all_lower l
  have h1 : replaceRuns (sanitizeChars l) = sanitizeChars l :=
    replaceRunsAux_eq_self false _
      (fun c hc => isLabelChar_of_lower (hlow c hc))
  have h2 : trimCutset (sanitizeChars l) = sanitizeChars l := by
    apply trimCutset_eq_self
    · intro c rest hc
      exact sanitizeChars_head_false l c (by rw [hc]; rfl)
    · intro c hc
      exact sanitizeChars_getLast_false l c hlen hc
  show ((trimCutset (replaceRuns (sanitizeChars l))).take 63).map Char.toLower =
    sanitizeChars l
  rw [show replaceRuns (sanitizeChars l) = sanitizeChars l from h1, h2,
    List.take_of_length_le (sanitizeChars_length l)]
  exact map_toLower_eq_self hlow

/-- C5 counterexample: on the 64-character input of 62 `a`s, `.`, `a`, the
sanitizer truncates right after the `.`, and a second application trims that
trailing `.` away, so the sanitizer is not idempotent. -/
theorem C5_sanitizeLabel_counterexample :
    (sanitizeLabel longInput).1 = String.mk (List.replicate 62 'a' ++ ['.']) ∧
    (sanitizeLabel ((sanitizeLabel longInput).1)).1 =
      String.mk (List.replicate 62 'a') ∧
    (sanitizeLabel ((sanitizeLabel longInput).1)).1 ≠
      (sanitizeLabel longInput).1 :=
  ⟨by decide, by decide, by decide⟩

/-- C5 (amended): the sanitizer is idempotent (and its error result nil) on
every input on which no truncation occurs, i.e. whose trimmed replacement has
at most 63 characters — in particular on every input of at most 63
characters; in general a second application can remove a trailing `-`, `_`
or `.` left by the 63-character truncation. -/
theorem C5_sanitizeLabel_idempotent_amended (s : String)
    (h : (trimCutset (replaceRuns s.toList)).length ≤ 63) :
    (sanitizeLabel ((sanitizeLabel s).1)).1 = (sanitizeLabel s).1 ∧
    (sanitizeLabel s).2 = none ∧
    (sanitizeLabel ((sanitizeLabel s).1)).2 = none := by
  refine ⟨?_, rfl, rfl⟩
  show String.mk (sanitizeChars (String.mk (sanitizeChars s.toList)).toList) =
    String.mk (sanitizeChars s.toList)
  exact congrArg String.mk (sanitizeChars_idem s.toList h)

/-- C5 amended witness: idempotent on `AZ_1!!`. -/
theorem C5_sanitizeLabel_idempotent_amended_witness :
    (trimCutset (replaceRuns ("AZ_1!!").toList)).length ≤ 63 ∧
    (sanitizeLabel ((sanitizeLabel ("AZ_1!!")).1)).1 =
      (sanitizeLabel ("AZ_1!!")).1 ∧
    (sanitizeLabel ("AZ_1!!")).1 = "az_1" :=
  ⟨by decide,
   (C5_sanitizeLabel_idempotent_amended "AZ_1!!" (by decide)).1,
   by decide⟩

/-- C6 counterexample: the 64-character input of 62 `a`s, `.`, `a` contains
alphanumerics, yet its sanitized output ends in the trim character `.`
(truncation happens after trimming), refuting the no-trailing-trim-character
part of the claim. -/
theorem C6_sanitizeLabel_counterexample :
    (∃ c ∈ longInput.toList, isAlnumChar c = true) ∧
    (sanitizeLabel longInput).1.toList.getLast? = some '.' ∧
    isTrimChar '.' = true :=
  ⟨by decide, by decide, by decide⟩

/-- C6 (amended): for every input the sanitized output has length at most 63
and contains only lower-case alphanumerics, `-`, `_`, `.`; its first
character is never `-`, `_` or `.`; and its last character is not `-`, `_`
or `.` provided no truncation occurs (the trimmed replacement has at most 63
characters) — without that proviso the truncation can leave a trailing trim
character. -/
theorem C6_sanitizeLabel_bounds_amended (s : String) :
    (sanitizeLabel s).1.length ≤ 63 ∧
    (∀ c ∈ (sanitizeLabel s).1.toList, isLowerLabelChar c = true) ∧
    (∀ c, (sanitizeLabel s).1.toList.head? = some c → isTrimChar c = false) ∧
    ((trimCutset (replaceRuns s.toList)).length ≤ 63 →
      ∀ c, (sanitizeLabel s).1.toList.getLast? = some c →
        isTrimChar c = false) := by
  refine ⟨?_, ?_, ?_, ?_⟩
  · show (sanitizeChars s.toList).length ≤ 63
    exact sanitizeChars_length s.toList
  · intro c hc
    exact sanitizeChars_all_lower s.toList c hc
  · intro c hc
    exact sanitizeChars_head_false s.toList c hc
  · intro hlen c hc
    exact sanitizeChars_getLast_false s.toList c hlen hc

/-- C6 amended witness: bounds on `AZ_1!!`. -/
theorem C6_sanitizeLabel_bounds_amended_witness :
    (sanitizeLabel ("AZ_1!!")).1.length ≤ 63 ∧
    ((sanitizeLabel ("AZ_1!!")).1.toList.getLast? = some '1' ∧
      isTrimChar '1' = false) :=
  ⟨(C6_sanitizeLabel_bounds_amended "AZ_1!!").1,
   ⟨by decide,
    (C6_sanitizeLabel_bounds_amended "AZ_1!!").2.2.2 (by decide) '1'
      (by decide)⟩⟩

end InstancesV2Spec
